import Mathlib

/-!
Verification development for the LabLens mock backend
(`src/backend/mock_backend.py`): a shallow embedding of the orchestration
pipeline (schema normalization, intra-result dedupe, model-chain fallback,
completeness retry, reconciliation, batching/merging, synthesis) together
with theorems about the claims of the natural-language specification.
-/

set_option maxHeartbeats 1000000

namespace LabLens

/-! ## Python string primitives

The backend manipulates Python strings with `.strip()`, `.lower()`,
truthiness (`s or d`), `in` (substring test) and slicing (`s[:n]`).
We embed them over Lean strings.
-/

/-- Embedding of Python `str.strip()`: drop whitespace from both ends. -/
def stripChars (l : List Char) : List Char :=
  ((l.dropWhile Char.isWhitespace).reverse.dropWhile Char.isWhitespace).reverse

/-- Python `s.strip()`. -/
def pyStrip (s : String) : String := ⟨stripChars s.data⟩

/-- Python `s.lower()`: lower-case every character. -/
def pyLower (s : String) : String := ⟨s.data.map Char.toLower⟩

/-- Python `s or d` for strings: `d` when `s` is empty, else `s`. -/
def pyOr (s d : String) : String := if s = "" then d else s

/-- Boolean prefix test on character lists. -/
def listIsPrefixOfB : List Char → List Char → Bool
  | [], _ => true
  | _ :: _, [] => false
  | a :: as, b :: bs => a == b && listIsPrefixOfB as bs

/-- Boolean substring test on character lists. -/
def listContainsSub (needle : List Char) : List Char → Bool
  | [] => listIsPrefixOfB needle []
  | h :: t => listIsPrefixOfB needle (h :: t) || listContainsSub needle t

/-- Python `pat in hay` (substring test). -/
def pyContains (hay pat : String) : Bool := listContainsSub pat.data hay.data

/-- Python `repr` of a list of ints, as used by f-string formatting of
`page_numbers` (for example `[1, 2]`). -/
def pyListRepr (l : List Nat) : String :=
  "[" ++ String.intercalate ", " (l.map toString) ++ "]"

section StripLemmas

variable {p : Char → Bool}

theorem dropWhile_dropWhile (p : Char → Bool) (l : List Char) :
    (l.dropWhile p).dropWhile p = l.dropWhile p := by
  induction l with
  | nil => rfl
  | cons a l ih =>
    by_cases h : p a
    · simp [List.dropWhile_cons, h, ih]
    · simp [List.dropWhile_cons, h]

theorem dropWhile_eq_self_of_isPrefixOf {l₁ l₂ : List Char}
    (hpre : l₁ <+: l₂) (h : l₂.dropWhile p = l₂) : l₁.dropWhile p = l₁ := by
  cases l₁ with
  | nil => rfl
  | cons a t =>
    obtain ⟨r, hr⟩ := hpre
    subst hr
    rw [List.dropWhile_eq_self_iff] at h
    have ha : ¬ p a := by
      have := h (by simp)
      simpa using this
    rw [List.dropWhile_cons, if_neg ha]

theorem stripChars_eq_rdropWhile (l : List Char) :
    stripChars l = List.rdropWhile Char.isWhitespace (l.dropWhile Char.isWhitespace) := rfl

/-- `stripChars` is idempotent. -/
theorem stripChars_idem (l : List Char) : stripChars (stripChars l) = stripChars l := by
  rw [stripChars_eq_rdropWhile, stripChars_eq_rdropWhile]
  set p := Char.isWhitespace
  set y := l.dropWhile p with hy
  have h1 : List.dropWhile p (List.rdropWhile p y) = List.rdropWhile p y :=
    dropWhile_eq_self_of_isPrefixOf ( List.rdropWhile_prefix p y)
      (by rw [hy]; exact List.dropWhile_idempotent p l)
  rw [h1, List.rdropWhile_idempotent]

@[simp] theorem pyStrip_idem (s : String) : pyStrip (pyStrip s) = pyStrip s := by
  simp [pyStrip, stripChars_idem]

theorem pyStrip_empty : pyStrip "" = "" := rfl

theorem pyStrip_ne_empty {s : String} (h : pyStrip s ≠ "") : s ≠ "" := by
  intro hs
  exact h (by simp [hs, pyStrip_empty])

end StripLemmas

/-! ## Data model

Canonical `ExtractionResult` shape produced by `_normalize_ai_output`.
-/

structure Biomarker where
  name : String
  value : String
  status : String
  explanation : String
deriving Repr, DecidableEq

structure Recommendation where
  name : String
  protocol : String
  reason : String
deriving Repr, DecidableEq

structure NormalizedOutput where
  biomarkers : List Biomarker
  recommendations : List Recommendation
  summary : String
  disclaimer : String
deriving Repr, DecidableEq

/-- Case-insensitive `(name, value)` dedupe key of `_dedupe_normalized_output`. -/
def bioKey (b : Biomarker) : String × String :=
  (pyLower (pyStrip b.name), pyLower (pyStrip b.value))

/-- Case-insensitive `(name, value, status)` merge key of `_merge_normalized_outputs`. -/
def tripleKey (b : Biomarker) : String × String × String :=
  (pyLower (pyStrip b.name), pyLower (pyStrip b.value), pyLower (pyStrip b.status))

/-- Case-insensitive `(name, protocol)` dedupe key for recommendations. -/
def recKey (r : Recommendation) : String × String :=
  (pyLower (pyStrip r.name), pyLower (pyStrip r.protocol))

/-- Merging a duplicate biomarker into the kept entry: keep the longer
explanation; replace an "Unknown" status by the newcomer when the newcomer
has a nonempty (stripped) status (`_dedupe_normalized_output`, lines 376-381). -/
def mergeBio (existing item : Biomarker) : Biomarker :=
  { existing with
    explanation :=
      if existing.explanation.length < item.explanation.length then item.explanation
      else existing.explanation,
    status :=
      if pyLower (pyStrip existing.status) = "unknown" ∧ pyStrip item.status ≠ "" then
        item.status
      else existing.status }

/-- One step of the biomarker dedupe fold: merge into the already-kept entry
with the same key, otherwise append. (The Python dict values alias the
output-list entries, so updating `seen_biomarkers[key]` updates the output.) -/
def dedupeBioStep (acc : List Biomarker) (item : Biomarker) : List Biomarker :=
  if bioKey item ∈ acc.map bioKey then
    acc.map (fun b => if bioKey b = bioKey item then mergeBio b item else b)
  else acc ++ [item]

def dedupe_biomarkers (items : List Biomarker) : List Biomarker :=
  items.foldl dedupeBioStep []

/-- One step of the recommendation dedupe fold: first occurrence wins. -/
def dedupeRecStep (acc : List Recommendation) (item : Recommendation) : List Recommendation :=
  if recKey item ∈ acc.map recKey then acc else acc ++ [item]

def dedupe_recommendations (items : List Recommendation) : List Recommendation :=
  items.foldl dedupeRecStep []

/-- `_dedupe_normalized_output` (lines 362-403). -/
def dedupe_normalized_output (n : NormalizedOutput) : NormalizedOutput :=
  { n with
    biomarkers := dedupe_biomarkers n.biomarkers,
    recommendations := dedupe_recommendations n.recommendations }

/-! ## Raw model output and `_normalize_ai_output`

A schema-valid raw output (the only inputs `_normalize_ai_output` accepts
without raising): `biomarkers` / `recommendations` are sequences whose
entries are either non-dict junk (skipped) or dicts with optional string
fields, and `summary` is a string.  Absent fields are `none`.
-/

inductive RawBiomarker where
  | notDict
  | item (name value status explanation : Option String)
deriving Repr, DecidableEq

inductive RawRecommendation where
  | notDict
  | item (name protocol protocolText reason : Option String)
deriving Repr, DecidableEq

structure RawOutput where
  biomarkers : List RawBiomarker
  recommendations : List RawRecommendation
  summary : String
  disclaimer : Option String
deriving Repr, DecidableEq

def DEFAULT_DISCLAIMER : String :=
  "DISCLAIMER: This is not medical advice. Consult a healthcare provider before use."

/-- Per-entry biomarker coercion of `_normalize_ai_output` (lines 333-341). -/
def normalizeRawBiomarker : RawBiomarker → Option Biomarker
  | .notDict => none
  | .item n v s e => some {
      name := pyOr (pyStrip (n.getD "")) "Unknown",
      value := pyOr (pyStrip (v.getD "")) "N/A",
      status := pyOr (pyStrip (s.getD "Unknown")) "Unknown",
      explanation := pyOr (pyStrip (e.getD "")) "No explanation provided." }

/-- Per-entry recommendation coercion of `_normalize_ai_output` (lines 344-351);
`protocol` falls back to the `protocolText` field when absent. -/
def normalizeRawRecommendation : RawRecommendation → Option Recommendation
  | .notDict => none
  | .item n p pt r => some {
      name := pyOr (pyStrip (n.getD "")) "Recommendation",
      protocol := pyOr (pyStrip (match p with | some x => x | none => pt.getD ""))
        "No protocol provided.",
      reason := pyOr (pyStrip (r.getD "")) "No reason provided." }

/-- Python `str(disclaimer or DEFAULT).strip()` on an optional string
(`None` and `""` are falsy, any other string is kept). -/
def normalizeDisclaimer (d : Option String) : String :=
  pyStrip (pyOr (d.getD "") DEFAULT_DISCLAIMER)

/-- `_normalize_ai_output` (lines 324-359) on a schema-valid input. -/
def normalize_ai_output (r : RawOutput) : NormalizedOutput :=
  dedupe_normalized_output {
    biomarkers := r.biomarkers.filterMap normalizeRawBiomarker,
    recommendations := r.recommendations.filterMap normalizeRawRecommendation,
    summary := pyStrip r.summary,
    disclaimer := normalizeDisclaimer r.disclaimer }

/-- Re-embedding of a normalized result as raw model output (all fields
present as strings), for stating `normalize(normalize(x)) = normalize(x)`. -/
def Biomarker.toRaw (b : Biomarker) : RawBiomarker :=
  .item (some b.name) (some b.value) (some b.status) (some b.explanation)

def Recommendation.toRaw (r : Recommendation) : RawRecommendation :=
  .item (some r.name) (some r.protocol) none (some r.reason)

def NormalizedOutput.toRaw (n : NormalizedOutput) : RawOutput :=
  { biomarkers := n.biomarkers.map Biomarker.toRaw,
    recommendations := n.recommendations.map Recommendation.toRaw,
    summary := n.summary,
    disclaimer := some n.disclaimer }

/-! ## Cross-batch merge (`_merge_normalized_outputs`, lines 406-451) -/

/-- One step of the cross-batch biomarker merge: skip entries whose
case-insensitive `(name, value, status)` triple was already seen. -/
def mergeBioStep (acc : List Biomarker) (item : Biomarker) : List Biomarker :=
  if tripleKey item ∈ acc.map tripleKey then acc else acc ++ [item]

/-- Last nonempty per-chunk summary, scanned from the most recent chunk
backward (line 438). -/
def lastChunkSummary (chunks : List NormalizedOutput) : String :=
  match chunks.reverse.find? (fun c => decide (pyStrip c.summary ≠ "")) with
  | some c => pyStrip c.summary
  | none => ""

/-- First nonempty disclaimer in chunk order, else the fixed default
(lines 441-444). -/
def firstChunkDisclaimer (chunks : List NormalizedOutput) : String :=
  match chunks.find? (fun c => decide (pyStrip c.disclaimer ≠ "")) with
  | some c => pyStrip c.disclaimer
  | none => DEFAULT_DISCLAIMER

/-- `_merge_normalized_outputs`; `none` models the `ValueError` raised on an
empty chunk list. -/
def merge_normalized_outputs (chunks : List NormalizedOutput) : Option NormalizedOutput :=
  if chunks.isEmpty then none
  else
    let mergedBiomarkers := (chunks.flatMap (·.biomarkers)).foldl mergeBioStep []
    let mergedRecommendations :=
      (chunks.flatMap (·.recommendations)).foldl dedupeRecStep []
    let last := lastChunkSummary chunks
    let summary :=
      "Analyzed report pages in order across " ++ toString chunks.length ++ " batch(es)."
        ++ (if last = "" then "" else " " ++ last)
    some (dedupe_normalized_output {
      biomarkers := mergedBiomarkers,
      recommendations := mergedRecommendations,
      summary := summary,
      disclaimer := firstChunkDisclaimer chunks })

/-! ## Configuration (environment globals, lines 8-38) -/

structure Config where
  aiProvider : String
  openrouterApiKey : String
  qwenApiKey : String
  openrouterPrimaryModel : String
  openrouterFallbackModel : String
  openrouterFallbackModel2 : String
  openrouterFallbackModel3 : String
  qwenPrimaryModel : String
  qwenFallbackModel : String
  qwenFallbackModel2 : String
  qwenFallbackModel3 : String
  pageBatchSize : Nat
  minBiomarkersPerImageHint : Nat
  enableReconciliation : Bool
  ocrOnlyMode : Bool
  visualOnlyMode : Bool
deriving Repr, DecidableEq

def active_provider_api_key (c : Config) : String :=
  if c.aiProvider = "qwen" then c.qwenApiKey else c.openrouterApiKey

/-- `_active_provider_model_chain` (lines 245-255): provider chain with
blank entries dropped. -/
def active_provider_model_chain (c : Config) : List String :=
  (if c.aiProvider = "qwen" then
    [c.qwenPrimaryModel, c.qwenFallbackModel, c.qwenFallbackModel2, c.qwenFallbackModel3]
  else
    [c.openrouterPrimaryModel, c.openrouterFallbackModel, c.openrouterFallbackModel2,
      c.openrouterFallbackModel3]).filter (fun m => decide (pyStrip m ≠ ""))

/-- Text-first predicate of `_active_provider_model_chain_for_mode` (line 265). -/
def isTextFirstModel (m : String) : Bool :=
  let lower := pyLower m
  pyContains lower "gemma" || (!pyContains lower "vl" && !pyContains lower "vision")

/-- `_active_provider_model_chain_for_mode` (lines 258-270): in OCR-only mode,
text-capable models are moved to the front; the second phase appends the
remaining models, skipping any already present. -/
def active_provider_model_chain_for_mode (c : Config) : List String :=
  let chain := active_provider_model_chain c
  if !c.ocrOnlyMode then chain
  else
    chain.foldl (fun acc m => if m ∈ acc then acc else acc ++ [m])
      (chain.filter isTextFirstModel)

/-- Reconciliation model list (lines 578-585): OpenRouter fallback 1, then
fallback 2, then the primary, dropping empty strings and duplicates. -/
def recon_models (c : Config) : List String :=
  let ms : List String := []
  let ms := if c.openrouterFallbackModel ≠ "" then ms ++ [c.openrouterFallbackModel] else ms
  let ms :=
    if c.openrouterFallbackModel2 ≠ "" ∧ c.openrouterFallbackModel2 ∉ ms then
      ms ++ [c.openrouterFallbackModel2]
    else ms
  let ms :=
    if c.openrouterPrimaryModel ≠ "" ∧ c.openrouterPrimaryModel ∉ ms then
      ms ++ [c.openrouterPrimaryModel]
    else ms
  ms.filter (fun m => decide (m ≠ ""))

/-! ## Request payload and OCR text extraction -/

structure Payload where
  images : List String
  reportText : Option String
  reportTextByPage : List (Int × String)
deriving Repr

/-- `_extract_report_text` (lines 41-46): the request's whole-report OCR
text, stripped, or `""` when absent or whitespace-only. -/
def extract_report_text (p : Payload) : String :=
  match p.reportText with
  | some v => if pyStrip v = "" then "" else pyStrip v
  | none => ""

/-- `_extract_report_text_by_page` (lines 49-69): keep entries with a positive
page and nonempty stripped text, sorted by page (stable). -/
def extract_report_text_by_page (p : Payload) : List (Int × String) :=
  let pages := p.reportTextByPage.filterMap (fun it =>
    if it.1 ≤ 0 ∨ pyStrip it.2 = "" then none else some (it.1, pyStrip it.2))
  if pages.isEmpty then []
  else pages.mergeSort (fun a b => decide (a.1 ≤ b.1))

/-! ## Model calls as an oracle

`_call_openrouter_model` performs one HTTP request; the pipeline only
observes, per call, either a parsed-and-normalized result or an exception.
We model the remote side as an oracle from call arguments to outcomes, and
the pipeline additionally returns the ordered trace of calls it issued.
-/

inductive CallKind where
  | extraction
  /-- Reconciliation call; the prompt embeds the existing extraction. -/
  | reconciliation (extracted : NormalizedOutput)
  /-- Synthesis call; the prompt embeds the merged extraction. -/
  | synthesis (extracted : NormalizedOutput)
deriving Repr, DecidableEq

structure CallArgs where
  model : String
  images : List String
  pageNumbers : List Nat
  totalPages : Nat
  kind : CallKind
deriving Repr, DecidableEq

inductive CallOutcome where
  /-- `urllib.error.HTTPError` with status code and (already read) body. -/
  | httpError (code : Nat) (body : String)
  /-- Any other exception text (transport, JSON, schema validation). -/
  | exn (msg : String)
  /-- The call returned JSON that passed `_normalize_ai_output`. -/
  | ok (output : NormalizedOutput)
deriving Repr, DecidableEq

def CallOutcome.isFail : CallOutcome → Bool
  | .ok _ => false
  | _ => true

/-- The `"{model}: {error}"` diagnostic for one failed call; HTTP errors embed
the status code and the body truncated to `trunc` characters. -/
def callErrorString (trunc : Nat) (model : String) : CallOutcome → String
  | .httpError code body => model ++ ": HTTP " ++ toString code ++ " " ++ body.take trunc
  | .exn msg => model ++ ": " ++ msg
  | .ok _ => ""

/-- The shared try-each-model loop: first success returns `(result, model)`
and stops; otherwise errors accumulate and are joined by `" | "`. Also
returns the trace of calls issued. -/
def runChainLoop (oracle : CallArgs → CallOutcome) (trunc : Nat) (mk : String → CallArgs) :
    List String → List String → (Option NormalizedOutput × String) × List CallArgs
  | [], errs => ((none, String.intercalate " | " errs.reverse), [])
  | m :: rest, errs =>
    let args := mk m
    match oracle args with
    | .ok out => ((some out, m), [args])
    | o =>
      let r := runChainLoop oracle trunc mk rest (callErrorString trunc m o :: errs)
      (r.1, args :: r.2)

/-- `run_model_chain_for_images` (lines 545-568): the extraction fallback
chain runner. On success the diagnostic slot holds the succeeding model
identifier; on exhaustion it holds the joined per-model failures. -/
def run_model_chain_for_images (oracle : CallArgs → CallOutcome) (modelChain : List String)
    (imagesSubset : List String) (pageNumbers : List Nat) (totalPages : Nat) :
    (Option NormalizedOutput × String) × List CallArgs :=
  runChainLoop oracle 300
    (fun m => ⟨m, imagesSubset, pageNumbers, totalPages, .extraction⟩) modelChain []

/-- `run_reconciliation_chain_for_images` (lines 570-611). -/
def run_reconciliation_chain_for_images (c : Config) (oracle : CallArgs → CallOutcome)
    (imagesSubset : List String) (pageNumbers : List Nat) (totalPages : Nat)
    (extracted : NormalizedOutput) :
    (NormalizedOutput × Option String) × List CallArgs :=
  if c.visualOnlyMode || !c.enableReconciliation then ((extracted, none), [])
  else
    let ms := recon_models c
    let r := runChainLoop oracle 300
      (fun m => ⟨m, imagesSubset, pageNumbers, totalPages, .reconciliation extracted⟩) ms []
    match r.1 with
    | (some out, m) => ((out, some m), r.2)
    | (none, errs) => ((extracted, if ms.isEmpty then none else some errs), r.2)

/-- `run_summary_recommendation_synthesis` (lines 613-644): image-free final
pass; on success only recommendations/summary/disclaimer are taken from the
synthesized output (then the result is deduped again); on exhaustion the
input is returned with the joined errors as diagnostic. -/
def run_summary_recommendation_synthesis (c : Config) (oracle : CallArgs → CallOutcome)
    (extracted : NormalizedOutput) :
    (NormalizedOutput × Option String) × List CallArgs :=
  let synthModels := active_provider_model_chain_for_mode c
  let r := runChainLoop oracle 220
    (fun m => ⟨m, [], [], 0, .synthesis extracted⟩) synthModels []
  match r.1 with
  | (some normalized, m) =>
      ((dedupe_normalized_output { extracted with
          recommendations := normalized.recommendations,
          summary := normalized.summary,
          disclaimer := normalized.disclaimer }, some m), r.2)
  | (none, errs) => ((extracted, if synthModels.isEmpty then none else some errs), r.2)

/-- `_is_suspiciously_incomplete` (lines 454-462) on a structured result
(whose `biomarkers` field is a list by construction). -/
def is_suspiciously_incomplete (c : Config) (normalized : NormalizedOutput)
    (imageCount : Nat) : Bool :=
  decide (2 ≤ imageCount ∧
    normalized.biomarkers.length < c.minBiomarkersPerImageHint * imageCount)

/-- The shared tail of `run_with_completeness_retry` (lines 651-654 and
667-670): reconcile the given result and append any reconciliation error to
the diagnostic after a `" | reconciliation:"` marker. -/
def reconcileAndTag (c : Config) (oracle : CallArgs → CallOutcome)
    (imagesSubset : List String) (pageNumbers : List Nat) (totalPages : Nat)
    (normalized : NormalizedOutput) (modelOrError : String) (trace : List CallArgs) :
    (Option NormalizedOutput × String) × List CallArgs :=
  let rr := run_reconciliation_chain_for_images c oracle imagesSubset pageNumbers
    totalPages normalized
  match rr.1.2 with
  | some rm =>
    ((some rr.1.1, modelOrError ++ " | reconciliation:" ++ rm), trace ++ rr.2)
  | none => ((some rr.1.1, modelOrError), trace ++ rr.2)

/-- The per-image retry loop of `run_with_completeness_retry` (lines 660-679),
iterating over `(image, page)` pairs. If a single-image retry fails entirely,
fall back to reconciling the original batch result. -/
def completenessRetryLoop (c : Config) (oracle : CallArgs → CallOutcome)
    (modelChain : List String) (imagesSubset : List String) (pageNumbers : List Nat)
    (totalPages : Nat) (normalized : NormalizedOutput) (modelOrError : String) :
    List (String × Nat) → List NormalizedOutput → List String → List CallArgs →
    (Option NormalizedOutput × String) × List CallArgs
  | [], chunksRev, modelsRev, trace =>
    (match merge_normalized_outputs chunksRev.reverse with
    | none => ((none, "No chunk outputs to merge"), trace)
    | some mergedRetry =>
      let rr := run_reconciliation_chain_for_images c oracle imagesSubset pageNumbers
        totalPages mergedRetry
      let meta := modelOrError ++ " (completeness-retry via "
        ++ String.intercalate " -> " modelsRev.reverse ++ ")"
      let meta := match rr.1.2 with
        | some rm => meta ++ " | reconciliation:" ++ rm
        | none => meta
      ((some rr.1.1, meta), trace ++ rr.2))
  | (img, pg) :: rest, chunksRev, modelsRev, trace =>
    let sr := run_model_chain_for_images oracle modelChain [img] [pg] totalPages
    (match sr.1 with
    | (some single, singleModel) =>
      completenessRetryLoop c oracle modelChain imagesSubset pageNumbers totalPages
        normalized modelOrError rest (single :: chunksRev) (singleModel :: modelsRev)
        (trace ++ sr.2)
    | (none, _) =>
      reconcileAndTag c oracle imagesSubset pageNumbers totalPages normalized
        modelOrError (trace ++ sr.2))

/-- `run_with_completeness_retry` (lines 646-679). -/
def run_with_completeness_retry (c : Config) (oracle : CallArgs → CallOutcome)
    (modelChain : List String) (imagesSubset : List String) (pageNumbers : List Nat)
    (totalPages : Nat) : (Option NormalizedOutput × String) × List CallArgs :=
  let first := run_model_chain_for_images oracle modelChain imagesSubset pageNumbers totalPages
  match first.1 with
  | (none, moe) => ((none, moe), first.2)
  | (some normalized, moe) =>
    if imagesSubset.length ≤ 1 ∨ ¬ is_suspiciously_incomplete c normalized imagesSubset.length then
      reconcileAndTag c oracle imagesSubset pageNumbers totalPages normalized moe first.2
    else
      completenessRetryLoop c oracle modelChain imagesSubset pageNumbers totalPages
        normalized moe (imagesSubset.zip pageNumbers) [] [] first.2

/-- Python `range(start, stop, step)` over naturals. -/
def pyRangeStep (start stop step : Nat) : List Nat :=
  if step = 0 then []
  else (List.range ((stop - start + step - 1) / step)).map (fun i => start + i * step)

/-- The batch-mode loop of `maybe_generate_with_openrouter` (lines 681-702):
process batches in page order, fail the whole request on the first failed
batch, then merge and run the synthesis pass. -/
def batchLoop (c : Config) (oracle : CallArgs → CallOutcome) (modelChain : List String)
    (images : List String) (totalPages : Nat) (providerLabel : String) :
    List Nat → List NormalizedOutput → List String → List CallArgs →
    (Option NormalizedOutput × String) × List CallArgs
  | [], chunksRev, hitsRev, trace =>
    (match merge_normalized_outputs chunksRev.reverse with
    | none => ((none, "No chunk outputs to merge"), trace)
    | some merged =>
      let sr := run_summary_recommendation_synthesis c oracle merged
      let meta := providerLabel ++ " batch success (ordered pages) via "
        ++ String.intercalate " -> " hitsRev.reverse
      let meta := match sr.1.2 with
        | some sm => meta ++ " | summary/reco:" ++ sm
        | none => meta
      ((some sr.1.1, meta), trace ++ sr.2))
  | start :: rest, chunksRev, hitsRev, trace =>
    let stop := min (start + c.pageBatchSize) totalPages
    let subset := (images.drop start).take (stop - start)
    let pageNumbers := List.range' (start + 1) (stop - start)
    let r := run_with_completeness_retry c oracle modelChain subset pageNumbers totalPages
    (match r.1 with
    | (none, moe) =>
      ((none, providerLabel ++ " batch mode failed. pages " ++ pyListRepr pageNumbers
        ++ ": " ++ moe), trace ++ r.2)
    | (some n, hit) =>
      batchLoop c oracle modelChain images totalPages providerLabel rest
        (n :: chunksRev) (hit :: hitsRev) (trace ++ r.2))

/-- `maybe_generate_with_openrouter` (lines 529-714): the top-level
`analyze` entry point of the orchestration core. -/
def maybe_generate_with_openrouter (c : Config) (oracle : CallArgs → CallOutcome)
    (payload : Payload) : (Option NormalizedOutput × String) × List CallArgs :=
  let providerLabel := if c.aiProvider = "qwen" then "Qwen" else "OpenRouter"
  if active_provider_api_key c = "" then
    ((none, providerLabel ++ " disabled (missing "
      ++ (if c.aiProvider = "qwen" then "QWEN_API_KEY" else "OPENROUTER_API_KEY")
      ++ ")"), [])
  else
    let reportText := if c.visualOnlyMode then "" else extract_report_text payload
    let modelChain := active_provider_model_chain_for_mode c
    let images := payload.images
    if c.ocrOnlyMode ∧ pyStrip reportText = "" ∧ (extract_report_text_by_page payload).isEmpty then
      ((none, providerLabel ++ " OCR-only mode enabled but no OCR text was provided"), [])
    else if ¬ c.ocrOnlyMode ∧ c.pageBatchSize < images.length then
      batchLoop c oracle modelChain images images.length providerLabel
        (pyRangeStep 0 images.length c.pageBatchSize) [] [] []
    else
      let r := run_with_completeness_retry c oracle modelChain images
        (List.range' 1 images.length) images.length
      match r.1 with
      | (some n, moe) =>
        let sr := run_summary_recommendation_synthesis c oracle n
        let meta := providerLabel ++ " success via " ++ moe
        let meta := match sr.1.2 with
          | some sm => meta ++ " | summary/reco:" ++ sm
          | none => meta
        ((some sr.1.1, meta), r.2 ++ sr.2)
      | (none, moe) => ((none, providerLabel ++ " failed. " ++ moe), r.2)

/-! ## Generic facts about the fallback chain loop -/

theorem runChainLoop_all_fail (oracle : CallArgs → CallOutcome) (trunc : Nat)
    (mk : String → CallArgs) (ms : List String) :
    ∀ errs : List String,
      (∀ m ∈ ms, (oracle (mk m)).isFail = true) →
      runChainLoop oracle trunc mk ms errs =
        ((none, String.intercalate " | "
          (errs.reverse ++ ms.map (fun m => callErrorString trunc m (oracle (mk m))))),
         ms.map mk) := by
  induction ms with
  | nil => intro errs _; simp [runChainLoop]
  | cons m rest ih =>
    intro errs h
    have hm := h m (by simp)
    cases ho : oracle (mk m) with
    | ok out => rw [ho] at hm; simp [CallOutcome.isFail] at hm
    | httpError code body =>
      simp only [runChainLoop, ho]
      rw [ih (callErrorString trunc m (.httpError code body) :: errs)
        (fun m2 hm2 => h m2 (by simp [hm2]))]
      simp [ho, List.append_assoc]
    | exn msg =>
      simp only [runChainLoop, ho]
      rw [ih (callErrorString trunc m (.exn msg) :: errs)
        (fun m2 hm2 => h m2 (by simp [hm2]))]
      simp [ho, List.append_assoc]

theorem runChainLoop_first_success (oracle : CallArgs → CallOutcome) (trunc : Nat)
    (mk : String → CallArgs) (m : String) (post : List String) (out : NormalizedOutput)
    (hm : oracle (mk m) = .ok out) (pre : List String) :
    ∀ errs : List String,
      (∀ m2 ∈ pre, (oracle (mk m2)).isFail = true) →
      runChainLoop oracle trunc mk (pre ++ m :: post) errs =
        ((some out, m), (pre ++ [m]).map mk) := by
  induction pre with
  | nil => intro errs _; simp [runChainLoop, hm]
  | cons p pre ih =>
    intro errs h
    have hp := h p (by simp)
    cases ho : oracle (mk p) with
    | ok o => rw [ho] at hp; simp [CallOutcome.isFail] at hp
    | httpError code body =>
      simp only [List.cons_append, runChainLoop, ho, List.append_eq]
      rw [ih (callErrorString trunc p (.httpError code body) :: errs)
        (fun m2 hm2 => h m2 (by simp [hm2]))]
      simp
    | exn msg =>
      simp only [List.cons_append, runChainLoop, ho, List.append_eq]
      rw [ih (callErrorString trunc p (.exn msg) :: errs)
        (fun m2 hm2 => h m2 (by simp [hm2]))]
      simp

/-! ## Claim C1: fallback chain runner -/

def c1Out : NormalizedOutput := ⟨[], [], "s", "d"⟩

def c1Oracle : CallArgs → CallOutcome := fun args =>
  if args.model = "beta" then .ok c1Out else .exn "boom"

/-- C1 (counterexample): for the chain `["alpha", "beta", "gamma"]` where
`alpha` fails with error `boom` and `beta` succeeds, the runner does return
`beta`'s result without invoking `gamma`, but the returned trace is exactly
the identifier `"beta"`: it does not mention `alpha`'s failure (the local
error list is discarded on success), contrary to the claim. -/
theorem c1_counterexample :
    (run_model_chain_for_images c1Oracle ["alpha", "beta", "gamma"] [] [] 0).1
      = (some c1Out, "beta")
    ∧ pyContains
        (run_model_chain_for_images c1Oracle ["alpha", "beta", "gamma"] [] [] 0).1.2
        "alpha" = false
    ∧ c1Oracle ⟨"alpha", [], [], 0, .extraction⟩ = .exn "boom"
    ∧ (run_model_chain_for_images c1Oracle ["alpha", "beta", "gamma"] [] [] 0).2
      = [⟨"alpha", [], [], 0, .extraction⟩, ⟨"beta", [], [], 0, .extraction⟩] := by
  refine ⟨by decide, by decide, by decide, by decide⟩

/-- C1 (amended): models are tried strictly in chain order; the first model
whose output passes validation has its normalized result returned together
with its identifier (and only that identifier as diagnostic: earlier
failures are not part of the success trace), and no later model is invoked;
when every model fails, the accumulated per-model failure string
(`"{model}: {error}"` joined by `" | "`) is returned with a null result. -/
theorem c1_amended :
    (∀ (oracle : CallArgs → CallOutcome) (imgs : List String) (pages : List Nat)
        (total : Nat) (pre : List String) (m : String) (post : List String)
        (out : NormalizedOutput),
      (∀ m2 ∈ pre, (oracle ⟨m2, imgs, pages, total, .extraction⟩).isFail = true) →
      oracle ⟨m, imgs, pages, total, .extraction⟩ = .ok out →
      run_model_chain_for_images oracle (pre ++ m :: post) imgs pages total =
        ((some out, m),
          (pre ++ [m]).map (fun m2 => ⟨m2, imgs, pages, total, .extraction⟩)))
    ∧ (∀ (oracle : CallArgs → CallOutcome) (imgs : List String) (pages : List Nat)
        (total : Nat) (chain : List String),
      (∀ m ∈ chain, (oracle ⟨m, imgs, pages, total, .extraction⟩).isFail = true) →
      run_model_chain_for_images oracle chain imgs pages total =
        ((none, String.intercalate " | " (chain.map (fun m =>
          callErrorString 300 m (oracle ⟨m, imgs, pages, total, .extraction⟩)))),
         chain.map (fun m => ⟨m, imgs, pages, total, .extraction⟩))) := by
  constructor
  · intro oracle imgs pages total pre m post out hpre hm
    exact runChainLoop_first_success oracle 300 _ m post out hm pre [] hpre
  · intro oracle imgs pages total chain h
    simpa using runChainLoop_all_fail oracle 300 _ chain [] h

/-- Witness for C1 (amended) at a concrete chain. -/
theorem c1_witness :
    run_model_chain_for_images c1Oracle ["alpha", "beta", "gamma"] [] [] 0 =
      ((some c1Out, "beta"),
        (["alpha"] ++ ["beta"]).map (fun m2 => ⟨m2, [], [], 0, .extraction⟩)) :=
  c1_amended.1 c1Oracle [] [] 0 ["alpha"] "beta" ["gamma"] c1Out (by decide) (by decide)

/-! ## Claim C5: completeness-retry trigger -/

def c5Cfg : Config :=
  ⟨"openrouter", "k", "", "m", "", "", "", "", "", "", "", 2, 2, true, false, false⟩

def c5Out : NormalizedOutput :=
  ⟨[⟨"A", "1", "High", "e"⟩, ⟨"B", "2", "Low", "e"⟩, ⟨"C", "3", "Optimal", "e"⟩],
    [], "s", "d"⟩

/-- C5: a batch is judged suspiciously incomplete exactly when it contains
two or more images and its biomarker count is strictly below
`minimum_biomarkers_per_image × image_count`; in particular with floor 2,
a 2-image batch with exactly 3 biomarkers triggers the retry. -/
theorem c5_trigger :
    (∀ (c : Config) (normalized : NormalizedOutput) (imageCount : Nat),
      is_suspiciously_incomplete c normalized imageCount = true ↔
        (2 ≤ imageCount ∧
          normalized.biomarkers.length < c.minBiomarkersPerImageHint * imageCount))
    ∧ is_suspiciously_incomplete c5Cfg c5Out 2 = true := by
  constructor
  · intro c normalized imageCount
    simp [is_suspiciously_incomplete]
  · decide

/-! ## Structural facts about the intra-result dedupe -/

/-- The status comparison of the dedupe merge (line 380). -/
def isUnknownStatus (s : String) : Prop := pyLower (pyStrip s) = "unknown"

instance (s : String) : Decidable (isUnknownStatus s) := by
  unfold isUnknownStatus; infer_instance

@[simp] theorem bioKey_mergeBio (b x : Biomarker) : bioKey (mergeBio b x) = bioKey b := rfl

theorem mergeBio_status (b x : Biomarker) :
    (mergeBio b x).status =
      if pyLower (pyStrip b.status) = "unknown" ∧ pyStrip x.status ≠ "" then x.status
      else b.status := rfl

theorem mergeBio_explanation (b x : Biomarker) :
    (mergeBio b x).explanation =
      if b.explanation.length < x.explanation.length then x.explanation
      else b.explanation := rfl

theorem dedupeBioStep_map_bioKey (acc : List Biomarker) (x : Biomarker) :
    (dedupeBioStep acc x).map bioKey =
      if bioKey x ∈ acc.map bioKey then acc.map bioKey
      else acc.map bioKey ++ [bioKey x] := by
  by_cases hk : bioKey x ∈ acc.map bioKey
  · rw [if_pos hk]
    unfold dedupeBioStep
    rw [if_pos hk, List.map_map]
    apply List.map_congr_left
    intro b _
    by_cases hb : bioKey b = bioKey x
    · simp [hb]
    · simp [hb]
  · rw [if_neg hk]
    unfold dedupeBioStep
    rw [if_neg hk]
    simp

theorem dedupeBioStep_not_mem {acc : List Biomarker} {x : Biomarker}
    (hk : bioKey x ∉ acc.map bioKey) : dedupeBioStep acc x = acc ++ [x] := by
  unfold dedupeBioStep
  rw [if_neg hk]

theorem dedupeBioStep_keys_nodup {acc : List Biomarker} {x : Biomarker}
    (h : (acc.map bioKey).Nodup) : ((dedupeBioStep acc x).map bioKey).Nodup := by
  rw [dedupeBioStep_map_bioKey]
  by_cases hk : bioKey x ∈ acc.map bioKey
  · simpa [hk] using h
  · rw [if_neg hk, List.nodup_append]
    refine ⟨h, List.nodup_singleton _, ?_⟩
    intro a ha hax
    rw [List.mem_singleton] at hax
    subst hax
    exact hk ha

theorem dedupe_foldl_keys_nodup (xs : List Biomarker) :
    ∀ acc, (acc.map bioKey).Nodup → ((xs.foldl dedupeBioStep acc).map bioKey).Nodup := by
  induction xs with
  | nil => intro acc h; simpa using h
  | cons x xs ih => intro acc h; exact ih _ (dedupeBioStep_keys_nodup h)

theorem dedupe_biomarkers_keys_nodup (xs : List Biomarker) :
    ((dedupe_biomarkers xs).map bioKey).Nodup :=
  dedupe_foldl_keys_nodup xs [] (by simp)

theorem dedupe_foldl_length (xs : List Biomarker) :
    ∀ acc, (acc.map bioKey).Nodup →
      (xs.foldl dedupeBioStep acc).length = ((acc ++ xs).map bioKey).toFinset.card := by
  induction xs with
  | nil =>
    intro acc h
    simp only [List.foldl_nil, List.append_nil]
    rw [List.toFinset_card_of_nodup h, List.length_map]
  | cons x xs ih =>
    intro acc h
    simp only [List.foldl_cons]
    rw [ih _ (dedupeBioStep_keys_nodup h)]
    congr 1
    have hmap := dedupeBioStep_map_bioKey acc x
    by_cases hk : bioKey x ∈ acc.map bioKey
    · rw [if_pos hk] at hmap
      ext k
      simp only [List.map_append, List.toFinset_append, Finset.mem_union,
        List.mem_toFinset, List.map_cons, List.toFinset_cons, Finset.mem_insert, hmap]
      constructor
      · rintro (h1 | h1)
        · exact Or.inl h1
        · exact Or.inr (Or.inr h1)
      · rintro (h1 | h1 | h1)
        · exact Or.inl h1
        · exact Or.inl (h1 ▸ hk)
        · exact Or.inr h1
    · rw [if_neg hk] at hmap
      ext k
      simp only [List.map_append, List.toFinset_append, Finset.mem_union,
        List.mem_toFinset, List.map_cons, List.toFinset_cons, Finset.mem_insert, hmap,
        List.mem_append, List.mem_singleton]
      tauto

theorem dedupe_biomarkers_length (xs : List Biomarker) :
    (dedupe_biomarkers xs).length = ((xs.map bioKey).toFinset).card := by
  simpa using dedupe_foldl_length xs [] (by simp)

theorem dedupe_foldl_pred (P : Biomarker → Prop)
    (hP : ∀ a b, P a → P b → P (mergeBio a b)) (xs : List Biomarker) :
    ∀ acc, (∀ b ∈ acc, P b) → (∀ x ∈ xs, P x) →
      ∀ b ∈ xs.foldl dedupeBioStep acc, P b := by
  induction xs with
  | nil => intro acc hacc _ b hb; exact hacc b (by simpa using hb)
  | cons x xs ih =>
    intro acc hacc hxs
    simp only [List.foldl_cons]
    apply ih
    · intro b hb
      unfold dedupeBioStep at hb
      split at hb
      · obtain ⟨a, ha, hEq⟩ := List.mem_map.mp hb
        by_cases hk : bioKey a = bioKey x
        · rw [if_pos hk] at hEq
          exact hEq ▸ hP a x (hacc a ha) (hxs x (by simp))
        · rw [if_neg hk] at hEq
          exact hEq ▸ hacc a ha
      · rcases List.mem_append.mp hb with h1 | h1
        · exact hacc b h1
        · rw [List.mem_singleton] at h1
          exact h1 ▸ hxs x (by simp)
    · intro y hy
      exact hxs y (by simp [hy])

theorem dedupe_foldl_id (xs : List Biomarker) :
    ∀ acc, ((acc ++ xs).map bioKey).Nodup → xs.foldl dedupeBioStep acc = acc ++ xs := by
  induction xs with
  | nil => intro acc _; simp
  | cons x xs ih =>
    intro acc h
    have hk : bioKey x ∉ acc.map bioKey := by
      intro hmem
      rw [List.map_append, List.nodup_append] at h
      exact h.2.2 hmem (by simp)
    rw [List.foldl_cons, dedupeBioStep_not_mem hk, ih (acc ++ [x]) (by simpa using h)]
    simp

theorem dedupe_biomarkers_id_of_nodup {xs : List Biomarker}
    (h : (xs.map bioKey).Nodup) : dedupe_biomarkers xs = xs := by
  simpa using dedupe_foldl_id xs [] (by simpa using h)

/-! Recommendation side -/

theorem dedupeRecStep_map_recKey (acc : List Recommendation) (x : Recommendation) :
    (dedupeRecStep acc x).map recKey =
      if recKey x ∈ acc.map recKey then acc.map recKey
      else acc.map recKey ++ [recKey x] := by
  unfold dedupeRecStep
  by_cases hk : recKey x ∈ acc.map recKey
  · simp [hk]
  · simp [hk]

theorem dedupeRec_foldl_keys_nodup (rs : List Recommendation) :
    ∀ acc, (acc.map recKey).Nodup → ((rs.foldl dedupeRecStep acc).map recKey).Nodup := by
  induction rs with
  | nil => intro acc h; simpa using h
  | cons x rs ih =>
    intro acc h
    apply ih
    rw [dedupeRecStep_map_recKey]
    by_cases hk : recKey x ∈ acc.map recKey
    · simpa [hk] using h
    · rw [if_neg hk, List.nodup_append]
      refine ⟨h, List.nodup_singleton _, ?_⟩
      intro a ha hax
      rw [List.mem_singleton] at hax
      subst hax
      exact hk ha

theorem dedupe_recommendations_keys_nodup (rs : List Recommendation) :
    ((dedupe_recommendations rs).map recKey).Nodup :=
  dedupeRec_foldl_keys_nodup rs [] (by simp)

theorem dedupeRec_foldl_id (rs : List Recommendation) :
    ∀ acc, ((acc ++ rs).map recKey).Nodup → rs.foldl dedupeRecStep acc = acc ++ rs := by
  induction rs with
  | nil => intro acc _; simp
  | cons x rs ih =>
    intro acc h
    have hk : recKey x ∉ acc.map recKey := by
      intro hmem
      rw [List.map_append, List.nodup_append] at h
      exact h.2.2 hmem (by simp)
    have hstep : dedupeRecStep acc x = acc ++ [x] := by
      unfold dedupeRecStep
      rw [if_neg hk]
    rw [List.foldl_cons, hstep, ih (acc ++ [x]) (by simpa using h)]
    simp

theorem dedupe_recommendations_id_of_nodup {rs : List Recommendation}
    (h : (rs.map recKey).Nodup) : dedupe_recommendations rs = rs := by
  simpa using dedupeRec_foldl_id rs [] (by simpa using h)

theorem dedupeRec_foldl_mem (rs : List Recommendation) :
    ∀ acc, ∀ r ∈ rs.foldl dedupeRecStep acc, r ∈ acc ∨ r ∈ rs := by
  induction rs with
  | nil => intro acc r hr; exact Or.inl (by simpa using hr)
  | cons x rs ih =>
    intro acc r hr
    rcases ih (dedupeRecStep acc x) r hr with h1 | h1
    · unfold dedupeRecStep at h1
      split at h1
      · exact Or.inl h1
      · rcases List.mem_append.mp h1 with h2 | h2
        · exact Or.inl h2
        · rw [List.mem_singleton] at h2
          exact Or.inr (by simp [h2])
    · exact Or.inr (by simp [h1])

theorem dedupe_recommendations_mem {rs : List Recommendation} :
    ∀ r ∈ dedupe_recommendations rs, r ∈ rs := by
  intro r hr
  rcases dedupeRec_foldl_mem rs [] r hr with h1 | h1
  · simp at h1
  · exact h1

/-! ## Merge-content invariants of the biomarker dedupe -/

theorem bio_expl_aux (rest : List Biomarker) :
    ∀ (acc done : List Biomarker),
      (∀ b ∈ acc, ∀ x ∈ done, bioKey x = bioKey b →
        x.explanation.length ≤ b.explanation.length) →
      (∀ x ∈ done, bioKey x ∈ acc.map bioKey) →
      ∀ b ∈ rest.foldl dedupeBioStep acc, ∀ x ∈ done ++ rest,
        bioKey x = bioKey b → x.explanation.length ≤ b.explanation.length := by
  induction rest with
  | nil =>
    intro acc done h1 _ b hb x hx hkey
    rw [List.append_nil] at hx
    exact h1 b (by simpa using hb) x hx hkey
  | cons y rest ih =>
    intro acc done h1 h2 b hb x hx hkey
    by_cases hk : bioKey y ∈ acc.map bioKey
    · have hstep : dedupeBioStep acc y =
          acc.map (fun a => if bioKey a = bioKey y then mergeBio a y else a) := by
        unfold dedupeBioStep
        rw [if_pos hk]
      have h1' : ∀ b2 ∈ dedupeBioStep acc y, ∀ x2 ∈ done ++ [y],
          bioKey x2 = bioKey b2 → x2.explanation.length ≤ b2.explanation.length := by
        intro b2 hb2 x2 hx2 hkey2
        rw [hstep] at hb2
        obtain ⟨a, ha, hEq⟩ := List.mem_map.mp hb2
        by_cases hay : bioKey a = bioKey y
        · rw [if_pos hay] at hEq
          subst hEq
          have hexp : a.explanation.length ≤ (mergeBio a y).explanation.length := by
            rw [mergeBio_explanation]
            split <;> omega
          have hexpy : y.explanation.length ≤ (mergeBio a y).explanation.length := by
            rw [mergeBio_explanation]
            split <;> omega
          rcases List.mem_append.mp hx2 with hx3 | hx3
          · exact le_trans (h1 a ha x2 hx3 (by simpa using hkey2)) hexp
          · rw [List.mem_singleton] at hx3
            subst hx3
            exact hexpy
        · rw [if_neg hay] at hEq
          subst hEq
          rcases List.mem_append.mp hx2 with hx3 | hx3
          · exact h1 a ha x2 hx3 hkey2
          · rw [List.mem_singleton] at hx3
            subst hx3
            exact absurd hkey2.symm hay
      have h2' : ∀ x2 ∈ done ++ [y], bioKey x2 ∈ (dedupeBioStep acc y).map bioKey := by
        intro x2 hx2
        rw [dedupeBioStep_map_bioKey, if_pos hk]
        rcases List.mem_append.mp hx2 with hx3 | hx3
        · exact h2 x2 hx3
        · rw [List.mem_singleton] at hx3
          subst hx3
          exact hk
      have := ih (dedupeBioStep acc y) (done ++ [y]) h1' h2' b (by simpa using hb) x
        (by simpa [List.append_assoc] using hx) hkey
      exact this
    · have hstep := dedupeBioStep_not_mem hk
      have h1' : ∀ b2 ∈ dedupeBioStep acc y, ∀ x2 ∈ done ++ [y],
          bioKey x2 = bioKey b2 → x2.explanation.length ≤ b2.explanation.length := by
        intro b2 hb2 x2 hx2 hkey2
        rw [hstep] at hb2
        rcases List.mem_append.mp hb2 with hb3 | hb3
        · rcases List.mem_append.mp hx2 with hx3 | hx3
          · exact h1 b2 hb3 x2 hx3 hkey2
          · rw [List.mem_singleton] at hx3
            subst hx3
            exact absurd (hkey2 ▸ List.mem_map_of_mem bioKey hb3) hk
        · rw [List.mem_singleton] at hb3
          subst hb3
          rcases List.mem_append.mp hx2 with hx3 | hx3
          · exact absurd (hkey2 ▸ h2 x2 hx3) hk
          · rw [List.mem_singleton] at hx3
            subst hx3
            exact le_refl _
      have h2' : ∀ x2 ∈ done ++ [y], bioKey x2 ∈ (dedupeBioStep acc y).map bioKey := by
        intro x2 hx2
        rw [hstep, List.map_append]
        rcases List.mem_append.mp hx2 with hx3 | hx3
        · exact List.mem_append.mpr (Or.inl (h2 x2 hx3))
        · rw [List.mem_singleton] at hx3
          subst hx3
          exact List.mem_append.mpr (Or.inr (by simp))
      exact ih (dedupeBioStep acc y) (done ++ [y]) h1' h2' b (by simpa using hb) x
        (by simpa [List.append_assoc] using hx) hkey

theorem bio_status_aux (rest : List Biomarker) :
    ∀ (acc done : List Biomarker),
      (∀ x ∈ rest, pyStrip x.status ≠ "") →
      (∀ b ∈ acc, isUnknownStatus b.status → ∀ x ∈ done, bioKey x = bioKey b →
        isUnknownStatus x.status) →
      (∀ x ∈ done, bioKey x ∈ acc.map bioKey) →
      ∀ b ∈ rest.foldl dedupeBioStep acc, isUnknownStatus b.status →
        ∀ x ∈ done ++ rest, bioKey x = bioKey b → isUnknownStatus x.status := by
  induction rest with
  | nil =>
    intro acc done _ h1 _ b hb hu x hx hkey
    rw [List.append_nil] at hx
    exact h1 b (by simpa using hb) hu x hx hkey
  | cons y rest ih =>
    intro acc done hst h1 h2 b hb hu x hx hkey
    have hy : pyStrip y.status ≠ "" := hst y (by simp)
    by_cases hk : bioKey y ∈ acc.map bioKey
    · have hstep : dedupeBioStep acc y =
          acc.map (fun a => if bioKey a = bioKey y then mergeBio a y else a) := by
        unfold dedupeBioStep
        rw [if_pos hk]
      have h1' : ∀ b2 ∈ dedupeBioStep acc y, isUnknownStatus b2.status →
          ∀ x2 ∈ done ++ [y], bioKey x2 = bioKey b2 → isUnknownStatus x2.status := by
        intro b2 hb2 hu2 x2 hx2 hkey2
        rw [hstep] at hb2
        obtain ⟨a, ha, hEq⟩ := List.mem_map.mp hb2
        by_cases hay : bioKey a = bioKey y
        · rw [if_pos hay] at hEq
          subst hEq
          by_cases hua : isUnknownStatus a.status
          · have hsy : (mergeBio a y).status = y.status := by
              rw [mergeBio_status, if_pos ⟨hua, hy⟩]
            rw [hsy] at hu2
            rcases List.mem_append.mp hx2 with hx3 | hx3
            · exact h1 a ha hua x2 hx3 (by simpa using hkey2)
            · rw [List.mem_singleton] at hx3
              subst hx3
              exact hu2
          · have hsa : (mergeBio a y).status = a.status := by
              rw [mergeBio_status, if_neg (fun hc => hua hc.1)]
            rw [hsa] at hu2
            exact absurd hu2 hua
        · rw [if_neg hay] at hEq
          subst hEq
          rcases List.mem_append.mp hx2 with hx3 | hx3
          · exact h1 a ha hu2 x2 hx3 hkey2
          · rw [List.mem_singleton] at hx3
            subst hx3
            exact absurd hkey2.symm hay
      have h2' : ∀ x2 ∈ done ++ [y], bioKey x2 ∈ (dedupeBioStep acc y).map bioKey := by
        intro x2 hx2
        rw [dedupeBioStep_map_bioKey, if_pos hk]
        rcases List.mem_append.mp hx2 with hx3 | hx3
        · exact h2 x2 hx3
        · rw [List.mem_singleton] at hx3
          subst hx3
          exact hk
      exact ih (dedupeBioStep acc y) (done ++ [y]) (fun z hz => hst z (by simp [hz]))
        h1' h2' b (by simpa using hb) hu x (by simpa [List.append_assoc] using hx) hkey
    · have hstep := dedupeBioStep_not_mem hk
      have h1' : ∀ b2 ∈ dedupeBioStep acc y, isUnknownStatus b2.status →
          ∀ x2 ∈ done ++ [y], bioKey x2 = bioKey b2 → isUnknownStatus x2.status := by
        intro b2 hb2 hu2 x2 hx2 hkey2
        rw [hstep] at hb2
        rcases List.mem_append.mp hb2 with hb3 | hb3
        · rcases List.mem_append.mp hx2 with hx3 | hx3
          · exact h1 b2 hb3 hu2 x2 hx3 hkey2
          · rw [List.mem_singleton] at hx3
            subst hx3
            exact absurd (hkey2 ▸ List.mem_map_of_mem bioKey hb3) hk
        · rw [List.mem_singleton] at hb3
          subst hb3
          rcases List.mem_append.mp hx2 with hx3 | hx3
          · exact absurd (hkey2 ▸ h2 x2 hx3) hk
          · rw [List.mem_singleton] at hx3
            subst hx3
            exact hu2
      have h2' : ∀ x2 ∈ done ++ [y], bioKey x2 ∈ (dedupeBioStep acc y).map bioKey := by
        intro x2 hx2
        rw [hstep, List.map_append]
        rcases List.mem_append.mp hx2 with hx3 | hx3
        · exact List.mem_append.mpr (Or.inl (h2 x2 hx3))
        · rw [List.mem_singleton] at hx3
          subst hx3
          exact List.mem_append.mpr (Or.inr (by simp))
      exact ih (dedupeBioStep acc y) (done ++ [y]) (fun z hz => hst z (by simp [hz]))
        h1' h2' b (by simpa using hb) hu x (by simpa [List.append_assoc] using hx) hkey

theorem rec_first_aux (rest : List Recommendation) :
    ∀ (acc done : List Recommendation),
      (∀ r ∈ acc, done.find? (fun x => decide (recKey x = recKey r)) = some r) →
      (∀ k, k ∈ acc.map recKey ↔ k ∈ done.map recKey) →
      ∀ r ∈ rest.foldl dedupeRecStep acc,
        (done ++ rest).find? (fun x => decide (recKey x = recKey r)) = some r := by
  induction rest with
  | nil =>
    intro acc done h1 _ r hr
    rw [List.append_nil]
    exact h1 r (by simpa using hr)
  | cons y rest ih =>
    intro acc done h1 h2 r hr
    by_cases hk : recKey y ∈ acc.map recKey
    · have hstep : dedupeRecStep acc y = acc := by
        unfold dedupeRecStep
        rw [if_pos hk]
      have h1' : ∀ r2 ∈ dedupeRecStep acc y,
          (done ++ [y]).find? (fun x => decide (recKey x = recKey r2)) = some r2 := by
        intro r2 hr2
        rw [hstep] at hr2
        rw [List.find?_append, h1 r2 hr2]
        rfl
      have h2' : ∀ k, k ∈ (dedupeRecStep acc y).map recKey ↔ k ∈ (done ++ [y]).map recKey := by
        intro k
        rw [hstep, List.map_append]
        constructor
        · intro hmem
          exact List.mem_append.mpr (Or.inl ((h2 k).mp hmem))
        · intro hmem
          rcases List.mem_append.mp hmem with h3 | h3
          · exact (h2 k).mpr h3
          · rw [List.map_singleton, List.mem_singleton] at h3
            subst h3
            exact hk
      have := ih (dedupeRecStep acc y) (done ++ [y]) h1' h2' r (by simpa using hr)
      simpa [List.append_assoc] using this
    · have hstep : dedupeRecStep acc y = acc ++ [y] := by
        unfold dedupeRecStep
        rw [if_neg hk]
      have hnone : done.find? (fun x => decide (recKey x = recKey y)) = none := by
        rw [List.find?_eq_none]
        intro x hx hc
        rw [decide_eq_true_eq] at hc
        exact hk ((h2 (recKey y)).mpr (hc ▸ List.mem_map_of_mem recKey hx))
      have h1' : ∀ r2 ∈ dedupeRecStep acc y,
          (done ++ [y]).find? (fun x => decide (recKey x = recKey r2)) = some r2 := by
        intro r2 hr2
        rw [hstep] at hr2
        rcases List.mem_append.mp hr2 with h3 | h3
        · rw [List.find?_append, h1 r2 h3]
          rfl
        · rw [List.mem_singleton] at h3
          subst h3
          have hself : ([r2].find? (fun x => decide (recKey x = recKey r2))) = some r2 := by
            simp [List.find?]
          rw [List.find?_append, hnone, hself]
          rfl
      have h2' : ∀ k, k ∈ (dedupeRecStep acc y).map recKey ↔ k ∈ (done ++ [y]).map recKey := by
        intro k
        rw [hstep, List.map_append, List.map_append]
        constructor
        · intro hmem
          rcases List.mem_append.mp hmem with h3 | h3
          · exact List.mem_append.mpr (Or.inl ((h2 k).mp h3))
          · exact List.mem_append.mpr (Or.inr h3)
        · intro hmem
          rcases List.mem_append.mp hmem with h3 | h3
          · exact List.mem_append.mpr (Or.inl ((h2 k).mpr h3))
          · exact List.mem_append.mpr (Or.inr h3)
      have := ih (dedupeRecStep acc y) (done ++ [y]) h1' h2' r (by simpa using hr)
      simpa [List.append_assoc] using this

/-! ## Claim C6: intra-result dedupe invariant -/

/-- C6: after `_dedupe_normalized_output`, no two biomarkers share a
case-insensitive `(name, value)` pair; the kept entry's explanation is at
least as long as every duplicate's; when duplicates are merged a
non-"Unknown" status wins over "Unknown" (statuses being nonempty after
stripping, as the normalizer guarantees for every entry fed to the dedupe);
no two recommendations share a case-insensitive `(name, protocol)` pair and
each kept recommendation is the first occurrence of its key. -/
theorem c6_dedupe_invariant (xs : List Biomarker) (rs : List Recommendation) :
    ((dedupe_biomarkers xs).map bioKey).Nodup
    ∧ (∀ b ∈ dedupe_biomarkers xs, ∀ x ∈ xs, bioKey x = bioKey b →
        x.explanation.length ≤ b.explanation.length)
    ∧ ((∀ x ∈ xs, pyStrip x.status ≠ "") →
        ∀ b ∈ dedupe_biomarkers xs, isUnknownStatus b.status →
        ∀ x ∈ xs, bioKey x = bioKey b → isUnknownStatus x.status)
    ∧ ((dedupe_recommendations rs).map recKey).Nodup
    ∧ (∀ r ∈ dedupe_recommendations rs,
        rs.find? (fun x => decide (recKey x = recKey r)) = some r) := by
  refine ⟨dedupe_biomarkers_keys_nodup xs, ?_, ?_, dedupe_recommendations_keys_nodup rs, ?_⟩
  · intro b hb x hx hkey
    exact bio_expl_aux xs [] [] (by simp) (by simp) b hb x (by simpa using hx) hkey
  · intro hst b hb hu x hx hkey
    exact bio_status_aux xs [] [] hst (by simp) (by simp) b hb hu x (by simpa using hx) hkey
  · intro r hr
    have := rec_first_aux rs [] [] (by simp) (by simp) r hr
    simpa using this

def c6xs : List Biomarker :=
  [⟨"A", "1", "Unknown", "e"⟩, ⟨"A", "1", "High", "much longer"⟩]

/-- Witness for C6 at a concrete duplicate pair. -/
theorem c6_witness :
    (Biomarker.mk "A" "1" "Unknown" "e").explanation.length ≤
      (Biomarker.mk "A" "1" "High" "much longer").explanation.length :=
  (c6_dedupe_invariant c6xs []).2.1 (Biomarker.mk "A" "1" "High" "much longer")
    (by decide) (Biomarker.mk "A" "1" "Unknown" "e") (by decide) (by decide)

/-! ## Cross-batch merge: counting lemmas -/

theorem bioKey_of_tripleKey {a b : Biomarker} (h : tripleKey a = tripleKey b) :
    bioKey a = bioKey b := by
  unfold tripleKey at h
  unfold bioKey
  simp only [Prod.ext_iff] at h ⊢
  exact ⟨h.1, h.2.1⟩

theorem mergeBioStep_fold_keyset (L : List Biomarker) :
    ∀ acc, ((L.foldl mergeBioStep acc).map bioKey).toFinset =
      (acc.map bioKey).toFinset ∪ (L.map bioKey).toFinset := by
  induction L with
  | nil => intro acc; simp
  | cons x L ih =>
    intro acc
    simp only [List.foldl_cons]
    by_cases hk : tripleKey x ∈ acc.map tripleKey
    · have hstep : mergeBioStep acc x = acc := by
        unfold mergeBioStep
        rw [if_pos hk]
      rw [hstep, ih acc]
      obtain ⟨a, ha, hEq⟩ := List.mem_map.mp hk
      have hbk : bioKey x ∈ acc.map bioKey :=
        bioKey_of_tripleKey hEq ▸ List.mem_map_of_mem bioKey ha
      ext k
      simp only [Finset.mem_union, List.mem_toFinset, List.map_cons, List.toFinset_cons,
        Finset.mem_insert]
      constructor
      · rintro (h1 | h1)
        · exact Or.inl h1
        · exact Or.inr (Or.inr h1)
      · rintro (h1 | h1 | h1)
        · exact Or.inl h1
        · exact Or.inl (h1 ▸ hbk)
        · exact Or.inr h1
    · have hstep : mergeBioStep acc x = acc ++ [x] := by
        unfold mergeBioStep
        rw [if_neg hk]
      rw [hstep, ih (acc ++ [x])]
      ext k
      simp only [List.map_append, List.toFinset_append, Finset.mem_union, List.mem_toFinset,
        List.map_cons, List.toFinset_cons, Finset.mem_insert, List.map_nil, List.toFinset_nil]
      tauto

theorem merge_normalized_outputs_spec (chunks : List NormalizedOutput)
    (m : NormalizedOutput) (h : merge_normalized_outputs chunks = some m) :
    m.biomarkers.length = ((chunks.flatMap (·.biomarkers)).map bioKey).toFinset.card
    ∧ ∃ t, m.summary = "Analyzed report pages in order across "
        ++ toString chunks.length ++ " batch(es)." ++ t := by
  by_cases hc : chunks.isEmpty
  · unfold merge_normalized_outputs at h
    rw [if_pos hc] at h
    cases h
  · unfold merge_normalized_outputs at h
    rw [if_neg hc] at h
    injection h with hm
    subst hm
    constructor
    · show (dedupe_biomarkers ((chunks.flatMap (·.biomarkers)).foldl mergeBioStep [])).length = _
      rw [dedupe_biomarkers_length]
      congr 1
      rw [mergeBioStep_fold_keyset]
      simp
    · exact ⟨_, rfl⟩

/-! ## Claim C2: end-to-end batching and merge -/

/-- Reducible embedding of a begins-with test used to state summary-prefix
facts. -/
def pyStartsWith (s pre : String) : Bool := listIsPrefixOfB pre.data s.data

def c2Chunk1 : NormalizedOutput :=
  ⟨[⟨"A", "1", "High", "e"⟩, ⟨"X", "9", "Optimal", "e"⟩], [], "s1", "d1"⟩

def c2Chunk2 : NormalizedOutput :=
  ⟨[⟨"A", "1", "Low", "e"⟩, ⟨"Y", "8", "Optimal", "e"⟩], [], "s2", "d2"⟩

def c2Chunk3 : NormalizedOutput := ⟨[⟨"B", "2", "Optimal", "e"⟩], [], "s3", "d3"⟩

/-- Batch size 2, per-image floor 1, reconciliation disabled, hybrid mode,
single-model chain `["m"]`. -/
def c2Cfg : Config :=
  ⟨"openrouter", "k", "", "m", "", "", "", "", "", "", "", 2, 1, false, false, false⟩

def c2Payload : Payload := ⟨["i1", "i2", "i3", "i4", "i5"], none, []⟩

def c2ExtractionOutcome (pages : List Nat) : CallOutcome :=
  if pages = [1, 2] then .ok c2Chunk1
  else if pages = [3, 4] then .ok c2Chunk2
  else if pages = [5] then .ok c2Chunk3
  else .exn "unexpected"

def c2OracleSynthFail : CallArgs → CallOutcome := fun args =>
  match args.kind with
  | .extraction => c2ExtractionOutcome args.pageNumbers
  | .reconciliation _ => .exn "recon"
  | .synthesis _ => .exn "synthfail"

def c2SynthOut : NormalizedOutput := ⟨[], [], "Synthesized.", "d9"⟩

def c2OracleSynthOk : CallArgs → CallOutcome := fun args =>
  match args.kind with
  | .extraction => c2ExtractionOutcome args.pageNumbers
  | .reconciliation _ => .exn "recon"
  | .synthesis _ => .ok c2SynthOut

/-- C2 (counterexample): with 5 images and batch size 2 the three batches
yield valid extractions containing 5 distinct case-insensitive
`(name, value, status)` triples (`A/1` appears as both `High` and `Low`),
yet the final merged result has only 4 biomarkers, because the merge is
followed by the `(name, value)` dedupe; moreover the synthesis pass
(succeeding here) replaces the summary, so the final summary does not begin
with "Analyzed report pages in order across 3 batch(es).". -/
theorem c2_counterexample :
    ((maybe_generate_with_openrouter c2Cfg c2OracleSynthOk c2Payload).1.1.map
        (fun r => r.biomarkers.length) = some 4)
    ∧ (([c2Chunk1, c2Chunk2, c2Chunk3].flatMap (·.biomarkers)).map tripleKey).dedup.length = 5
    ∧ ((maybe_generate_with_openrouter c2Cfg c2OracleSynthOk c2Payload).1.1.map
        (fun r => pyStartsWith r.summary
          "Analyzed report pages in order across 3 batch(es).") = some false)
    ∧ c2OracleSynthOk ⟨"m", ["i1", "i2"], [1, 2], 5, .extraction⟩ = .ok c2Chunk1
    ∧ c2OracleSynthOk ⟨"m", ["i3", "i4"], [3, 4], 5, .extraction⟩ = .ok c2Chunk2
    ∧ c2OracleSynthOk ⟨"m", ["i5"], [5], 5, .extraction⟩ = .ok c2Chunk3 := by
  refine ⟨by decide, by decide, by decide, by decide, by decide, by decide⟩

/-- C2 (amended): with 5 images and batch size 2 the orchestrator forms
exactly the batches `[1,2],[3,4],[5]`; the merged biomarker count equals the
number of unique case-insensitive `(name, value)` PAIRS across all batches
(not `(name, value, status)` triples), and the merged summary entering the
synthesis pass begins with "Analyzed report pages in order across 3
batch(es)." — the final summary keeps that prefix when the synthesis chain
fails (on synthesis success the summary is replaced). -/
theorem c2_amended :
    (pyRangeStep 0 5 2 = [0, 2, 4]
      ∧ (pyRangeStep 0 5 2).map (fun s => List.range' (s + 1) (min (s + 2) 5 - s))
          = [[1, 2], [3, 4], [5]])
    ∧ (∀ (chunks : List NormalizedOutput) (m : NormalizedOutput),
        merge_normalized_outputs chunks = some m →
        m.biomarkers.length = ((chunks.flatMap (·.biomarkers)).map bioKey).toFinset.card
        ∧ ∃ t, m.summary = "Analyzed report pages in order across "
            ++ toString chunks.length ++ " batch(es)." ++ t)
    ∧ ((maybe_generate_with_openrouter c2Cfg c2OracleSynthFail c2Payload).1.1.map
          (fun r => r.biomarkers.length) = some 4
        ∧ (([c2Chunk1, c2Chunk2, c2Chunk3].flatMap (·.biomarkers)).map bioKey).toFinset.card = 4
        ∧ (maybe_generate_with_openrouter c2Cfg c2OracleSynthFail c2Payload).1.1.map
            (fun r => pyStartsWith r.summary
              "Analyzed report pages in order across 3 batch(es).") = some true
        ∧ ((maybe_generate_with_openrouter c2Cfg c2OracleSynthFail c2Payload).2.filterMap
            (fun a => match a.kind with | .extraction => some a.pageNumbers | _ => none))
            = [[1, 2], [3, 4], [5]]) := by
  refine ⟨⟨by decide, by decide⟩, ?_, by decide, by decide, by decide, by decide⟩
  intro chunks m h
  exact merge_normalized_outputs_spec chunks m h

def c2Merged : NormalizedOutput :=
  ⟨[⟨"A", "1", "High", "e"⟩, ⟨"X", "9", "Optimal", "e"⟩, ⟨"Y", "8", "Optimal", "e"⟩,
      ⟨"B", "2", "Optimal", "e"⟩], [],
    "Analyzed report pages in order across 3 batch(es). s3", "d1"⟩

/-- Witness for C2 (amended) at the concrete chunk list. -/
theorem c2_witness :
    c2Merged.biomarkers.length =
      (([c2Chunk1, c2Chunk2, c2Chunk3].flatMap (·.biomarkers)).map bioKey).toFinset.card :=
  (c2_amended.2.1 [c2Chunk1, c2Chunk2, c2Chunk3] c2Merged (by decide)).1

/-! ## Shape of normalized fields -/

/-- A string already in normalized form: stripping changes nothing and it is
nonempty. Every field the normalizer emits has this shape. -/
def StripFixed (s : String) : Prop := pyStrip s = s ∧ s ≠ ""

theorem stripFixed_pyOr (s d : String) (hd : pyStrip d = d) (hne : d ≠ "") :
    StripFixed (pyOr (pyStrip s) d) := by
  unfold pyOr
  by_cases h : pyStrip s = ""
  · rw [if_pos h]
    exact ⟨hd, hne⟩
  · rw [if_neg h]
    exact ⟨pyStrip_idem s, h⟩

def GoodBiomarker (b : Biomarker) : Prop :=
  StripFixed b.name ∧ StripFixed b.value ∧ StripFixed b.status ∧ StripFixed b.explanation

def GoodRecommendation (r : Recommendation) : Prop :=
  StripFixed r.name ∧ StripFixed r.protocol ∧ StripFixed r.reason

theorem normalizeRawBiomarker_good {raw : RawBiomarker} {b : Biomarker}
    (h : normalizeRawBiomarker raw = some b) : GoodBiomarker b := by
  cases raw with
  | notDict => cases h
  | item n v s e =>
    injection h with hb
    subst hb
    exact ⟨stripFixed_pyOr _ _ (by decide) (by decide),
      stripFixed_pyOr _ _ (by decide) (by decide),
      stripFixed_pyOr _ _ (by decide) (by decide),
      stripFixed_pyOr _ _ (by decide) (by decide)⟩

theorem normalizeRawRecommendation_good {raw : RawRecommendation} {r : Recommendation}
    (h : normalizeRawRecommendation raw = some r) : GoodRecommendation r := by
  cases raw with
  | notDict => cases h
  | item n p pt rr =>
    injection h with hr
    subst hr
    exact ⟨stripFixed_pyOr _ _ (by decide) (by decide),
      stripFixed_pyOr _ _ (by decide) (by decide),
      stripFixed_pyOr _ _ (by decide) (by decide)⟩

theorem mergeBio_good {a b : Biomarker} (ha : GoodBiomarker a) (hb : GoodBiomarker b) :
    GoodBiomarker (mergeBio a b) := by
  obtain ⟨han, hav, has, hae⟩ := ha
  obtain ⟨hbn, hbv, hbs, hbe⟩ := hb
  refine ⟨han, hav, ?_, ?_⟩
  · rw [show (mergeBio a b).status = _ from mergeBio_status a b]
    split
    · exact hbs
    · exact has
  · rw [show (mergeBio a b).explanation = _ from mergeBio_explanation a b]
    split
    · exact hbe
    · exact hae

theorem normalize_ai_output_good (x : RawOutput) :
    (∀ b ∈ (normalize_ai_output x).biomarkers, GoodBiomarker b)
    ∧ ∀ r ∈ (normalize_ai_output x).recommendations, GoodRecommendation r := by
  constructor
  · intro b hb
    have hb2 : b ∈ dedupe_biomarkers (x.biomarkers.filterMap normalizeRawBiomarker) := hb
    refine dedupe_foldl_pred GoodBiomarker (fun a b2 ha hb3 => mergeBio_good ha hb3)
      (x.biomarkers.filterMap normalizeRawBiomarker) [] (by simp) ?_ b hb2
    intro y hy
    obtain ⟨raw, _, hEq⟩ := List.mem_filterMap.mp hy
    exact normalizeRawBiomarker_good hEq
  · intro r hr
    have hr2 : r ∈ dedupe_recommendations
        (x.recommendations.filterMap normalizeRawRecommendation) := hr
    have hr3 := dedupe_recommendations_mem r hr2
    obtain ⟨raw, _, hEq⟩ := List.mem_filterMap.mp hr3
    exact normalizeRawRecommendation_good hEq

theorem normalizeRawBiomarker_toRaw {b : Biomarker} (h : GoodBiomarker b) :
    normalizeRawBiomarker b.toRaw = some b := by
  obtain ⟨hn, hv, hs, he⟩ := h
  show some _ = some b
  unfold pyOr
  rw [Option.getD_some, Option.getD_some, Option.getD_some, Option.getD_some,
    hn.1, hv.1, hs.1, he.1, if_neg hn.2, if_neg hv.2, if_neg hs.2, if_neg he.2]

theorem normalizeRawRecommendation_toRaw {r : Recommendation} (h : GoodRecommendation r) :
    normalizeRawRecommendation r.toRaw = some r := by
  obtain ⟨hn, hp, hr⟩ := h
  show some _ = some r
  unfold pyOr
  rw [Option.getD_some, Option.getD_some, hn.1, hp.1, hr.1,
    if_neg hn.2, if_neg hp.2, if_neg hr.2]

theorem filterMap_map_roundtrip {α β : Type} {f : α → Option β} {g : β → α}
    (l : List β) (h : ∀ b ∈ l, f (g b) = some b) : (l.map g).filterMap f = l := by
  induction l with
  | nil => rfl
  | cons b l ih =>
    rw [List.map_cons, List.filterMap_cons, h b (by simp)]
    rw [ih (fun b2 hb2 => h b2 (by simp [hb2]))]

theorem pyStrip_default_disclaimer : pyStrip DEFAULT_DISCLAIMER = DEFAULT_DISCLAIMER := by
  decide

/-! ## Claims C7 and C8: normalizer idempotence and non-empty guarantee -/

/-- C7 (counterexample): the schema-valid input with biomarkers `[]`,
recommendations `[]`, summary `"s"` and a whitespace-only disclaimer `"  "`
normalizes to an empty disclaimer (Python `"  " or default` keeps `"  "`,
which strips to `""`), and renormalizing substitutes the default disclaimer,
so `normalize(normalize(x)) ≠ normalize(x)`. -/
theorem c7_counterexample :
    normalize_ai_output (normalize_ai_output ⟨[], [], "s", some "  "⟩).toRaw
      ≠ normalize_ai_output ⟨[], [], "s", some "  "⟩ := by
  decide

/-- C7 (amended): `normalize(normalize(x)) = normalize(x)` for every
schema-valid `x` whose disclaimer is absent, empty, or not whitespace-only
(a nonempty whitespace-only disclaimer strips to `""` on the first pass and
is replaced by the default on the second). -/
theorem c7_amended (x : RawOutput)
    (h : match x.disclaimer with | none => True | some s => s = "" ∨ pyStrip s ≠ "") :
    normalize_ai_output (normalize_ai_output x).toRaw = normalize_ai_output x := by
  have hgood := normalize_ai_output_good x
  have hbio : ((normalize_ai_output x).biomarkers.map Biomarker.toRaw).filterMap
      normalizeRawBiomarker = (normalize_ai_output x).biomarkers :=
    filterMap_map_roundtrip _ (fun b hb => normalizeRawBiomarker_toRaw (hgood.1 b hb))
  have hrec : ((normalize_ai_output x).recommendations.map Recommendation.toRaw).filterMap
      normalizeRawRecommendation = (normalize_ai_output x).recommendations :=
    filterMap_map_roundtrip _ (fun r hr => normalizeRawRecommendation_toRaw (hgood.2 r hr))
  have hsum : pyStrip (normalize_ai_output x).summary = (normalize_ai_output x).summary := by
    show pyStrip (pyStrip x.summary) = pyStrip x.summary
    exact pyStrip_idem x.summary
  have hdis : normalizeDisclaimer (some (normalize_ai_output x).disclaimer)
      = (normalize_ai_output x).disclaimer := by
    show normalizeDisclaimer (some (normalizeDisclaimer x.disclaimer))
      = normalizeDisclaimer x.disclaimer
    cases hd : x.disclaimer with
    | none =>
      have h0 : normalizeDisclaimer none = DEFAULT_DISCLAIMER := by
        unfold normalizeDisclaimer pyOr
        rw [Option.getD_none, if_pos rfl]
        exact pyStrip_default_disclaimer
      rw [h0]
      unfold normalizeDisclaimer pyOr
      rw [Option.getD_some, if_neg (by decide : ¬ DEFAULT_DISCLAIMER = "")]
      exact pyStrip_default_disclaimer
    | some s =>
      rw [hd] at h
      rcases h with h1 | h1
      · subst h1
        have h0 : normalizeDisclaimer (some "") = DEFAULT_DISCLAIMER := by
          unfold normalizeDisclaimer pyOr
          rw [Option.getD_some, if_pos rfl]
          exact pyStrip_default_disclaimer
        rw [h0]
        unfold normalizeDisclaimer pyOr
        rw [Option.getD_some, if_neg (by decide : ¬ DEFAULT_DISCLAIMER = "")]
        exact pyStrip_default_disclaimer
      · have hs : s ≠ "" := pyStrip_ne_empty h1
        have h0 : normalizeDisclaimer (some s) = pyStrip s := by
          unfold normalizeDisclaimer pyOr
          rw [Option.getD_some, if_neg hs]
        rw [h0]
        unfold normalizeDisclaimer pyOr
        rw [Option.getD_some, if_neg h1]
        exact pyStrip_idem s
  have hbid : dedupe_biomarkers (normalize_ai_output x).biomarkers
      = (normalize_ai_output x).biomarkers := by
    apply dedupe_biomarkers_id_of_nodup
    exact dedupe_biomarkers_keys_nodup _
  have hrid : dedupe_recommendations (normalize_ai_output x).recommendations
      = (normalize_ai_output x).recommendations := by
    apply dedupe_recommendations_id_of_nodup
    exact dedupe_recommendations_keys_nodup _
  show dedupe_normalized_output {
      biomarkers := ((normalize_ai_output x).biomarkers.map Biomarker.toRaw).filterMap
        normalizeRawBiomarker,
      recommendations := ((normalize_ai_output x).recommendations.map
        Recommendation.toRaw).filterMap normalizeRawRecommendation,
      summary := pyStrip (normalize_ai_output x).summary,
      disclaimer := normalizeDisclaimer (some (normalize_ai_output x).disclaimer) }
    = normalize_ai_output x
  rw [hbio, hrec, hsum, hdis]
  unfold dedupe_normalized_output
  rw [hbid, hrid]

/-- Witness for C7 (amended) at a concrete input with an ordinary disclaimer. -/
theorem c7_witness :
    normalize_ai_output (normalize_ai_output ⟨[], [], "ok", some "d"⟩).toRaw
      = normalize_ai_output ⟨[], [], "ok", some "d"⟩ :=
  c7_amended ⟨[], [], "ok", some "d"⟩ (Or.inr (by decide))

/-- C8 (counterexample): normalization neither defaults nor repairs an
empty summary, and a whitespace-only disclaimer survives Python truthiness
and then strips to the empty string: on the schema-valid input with
`summary = ""` and `disclaimer = " "`, the normalized summary and
disclaimer are both empty, contradicting the claimed non-empty guarantee
for them. -/
theorem c8_counterexample :
    (normalize_ai_output ⟨[], [], "", some " "⟩).summary = ""
    ∧ (normalize_ai_output ⟨[], [], "", some " "⟩).disclaimer = "" := by
  exact ⟨by decide, by decide⟩

/-- C8 (amended): every entry of the normalized biomarker and
recommendation sequences has all its fields nonempty and no entry is null
(entries are total records); the summary is only the trimmed raw summary
(and may be empty); the disclaimer is defaulted to the fixed nonempty
medical disclaimer when absent (but a whitespace-only raw disclaimer yields
an empty one). -/
theorem c8_amended (x : RawOutput) :
    (∀ b ∈ (normalize_ai_output x).biomarkers,
      b.name ≠ "" ∧ b.value ≠ "" ∧ b.status ≠ "" ∧ b.explanation ≠ "")
    ∧ (∀ r ∈ (normalize_ai_output x).recommendations,
      r.name ≠ "" ∧ r.protocol ≠ "" ∧ r.reason ≠ "")
    ∧ (normalize_ai_output x).summary = pyStrip x.summary
    ∧ (x.disclaimer = none →
      (normalize_ai_output x).disclaimer = DEFAULT_DISCLAIMER ∧ DEFAULT_DISCLAIMER ≠ "") := by
  have hgood := normalize_ai_output_good x
  refine ⟨?_, ?_, rfl, ?_⟩
  · intro b hb
    obtain ⟨hn, hv, hs, he⟩ := hgood.1 b hb
    exact ⟨hn.2, hv.2, hs.2, he.2⟩
  · intro r hr
    obtain ⟨hn, hp, hre⟩ := hgood.2 r hr
    exact ⟨hn.2, hp.2, hre.2⟩
  · intro hd
    constructor
    · show normalizeDisclaimer x.disclaimer = DEFAULT_DISCLAIMER
      rw [hd]
      unfold normalizeDisclaimer pyOr
      rw [Option.getD_none, if_pos rfl]
      exact pyStrip_default_disclaimer
    · decide

/-- Witness for C8 (amended): the disclaimer defaulting clause at a concrete
input with no disclaimer. -/
theorem c8_witness :
    (normalize_ai_output ⟨[], [], "s", none⟩).disclaimer = DEFAULT_DISCLAIMER
    ∧ DEFAULT_DISCLAIMER ≠ "" :=
  (c8_amended ⟨[], [], "s", none⟩).2.2.2 rfl

/-! ## Reconciliation chain helpers -/

theorem run_recon_success (c : Config) (oracle : CallArgs → CallOutcome)
    (imagesSubset : List String) (pageNumbers : List Nat) (totalPages : Nat)
    (extracted : NormalizedOutput)
    (hv : c.visualOnlyMode = false) (he : c.enableReconciliation = true)
    (pre : List String) (m : String) (post : List String) (out : NormalizedOutput)
    (hchain : recon_models c = pre ++ m :: post)
    (hpre : ∀ m2 ∈ pre, (oracle ⟨m2, imagesSubset, pageNumbers, totalPages,
      .reconciliation extracted⟩).isFail = true)
    (hm : oracle ⟨m, imagesSubset, pageNumbers, totalPages, .reconciliation extracted⟩
      = .ok out) :
    (run_reconciliation_chain_for_images c oracle imagesSubset pageNumbers totalPages
      extracted).1 = (out, some m) := by
  simp only [run_reconciliation_chain_for_images, hv, he, Bool.not_true, Bool.or_false,
    Bool.false_or, if_neg (Bool.false_ne_true)]
  rw [hchain, runChainLoop_first_success oracle 300 _ m post out hm pre [] hpre]

theorem run_recon_all_fail (c : Config) (oracle : CallArgs → CallOutcome)
    (imagesSubset : List String) (pageNumbers : List Nat) (totalPages : Nat)
    (extracted : NormalizedOutput)
    (hv : c.visualOnlyMode = false) (he : c.enableReconciliation = true)
    (hfail : ∀ m ∈ recon_models c, (oracle ⟨m, imagesSubset, pageNumbers, totalPages,
      .reconciliation extracted⟩).isFail = true)
    (hne : recon_models c ≠ []) :
    (run_reconciliation_chain_for_images c oracle imagesSubset pageNumbers totalPages
      extracted).1 = (extracted, some (String.intercalate " | " ((recon_models c).map
        (fun m => callErrorString 300 m (oracle ⟨m, imagesSubset, pageNumbers, totalPages,
          .reconciliation extracted⟩))))) := by
  have hempty : (recon_models c).isEmpty = false := by
    cases hrm : recon_models c with
    | nil => exact absurd hrm hne
    | cons a l => rfl
  simp only [run_reconciliation_chain_for_images, hv, he, Bool.not_true, Bool.or_false,
    Bool.false_or, if_neg (Bool.false_ne_true)]
  rw [runChainLoop_all_fail oracle 300 _ (recon_models c) [] hfail]
  simp [hempty]

/-! ## Claim C3: synthesis pass frame property -/

/-- C3: when every synthesis model fails, the pre-synthesis result is
returned entirely unchanged (and, being returned rather than raised, never
fails the request; the joined failure string only lands in the diagnostic
slot); when the synthesis chain succeeds, only `recommendations`, `summary`
and `disclaimer` are replaced and the biomarkers sequence is unchanged (the
input being deduped, as every merged result is, and the model output being
normalizer output with deduped recommendations). -/
theorem c3_synthesis_frame (c : Config) (oracle : CallArgs → CallOutcome)
    (extracted : NormalizedOutput)
    (hb : dedupe_biomarkers extracted.biomarkers = extracted.biomarkers) :
    ((∀ m ∈ active_provider_model_chain_for_mode c,
        (oracle ⟨m, [], [], 0, .synthesis extracted⟩).isFail = true) →
      (run_summary_recommendation_synthesis c oracle extracted).1.1 = extracted)
    ∧ (∀ (pre : List String) (m : String) (post : List String) (out : NormalizedOutput),
        active_provider_model_chain_for_mode c = pre ++ m :: post →
        (∀ m2 ∈ pre, (oracle ⟨m2, [], [], 0, .synthesis extracted⟩).isFail = true) →
        oracle ⟨m, [], [], 0, .synthesis extracted⟩ = .ok out →
        dedupe_recommendations out.recommendations = out.recommendations →
        (run_summary_recommendation_synthesis c oracle extracted).1 =
          ({ biomarkers := extracted.biomarkers, recommendations := out.recommendations,
             summary := out.summary, disclaimer := out.disclaimer }, some m)) := by
  constructor
  · intro hfail
    simp only [run_summary_recommendation_synthesis]
    rw [runChainLoop_all_fail oracle 220 _ (active_provider_model_chain_for_mode c) [] hfail]
  · intro pre m post out hchain hpre hm hout
    simp only [run_summary_recommendation_synthesis]
    rw [hchain, runChainLoop_first_success oracle 220 _ m post out hm pre [] hpre]
    show (dedupe_normalized_output { extracted with
        recommendations := out.recommendations,
        summary := out.summary,
        disclaimer := out.disclaimer }, some m) = _
    have hb2 : dedupe_biomarkers ({ extracted with
        recommendations := out.recommendations,
        summary := out.summary,
        disclaimer := out.disclaimer } : NormalizedOutput).biomarkers
      = extracted.biomarkers := hb
    have hr2 : dedupe_recommendations ({ extracted with
        recommendations := out.recommendations,
        summary := out.summary,
        disclaimer := out.disclaimer } : NormalizedOutput).recommendations
      = out.recommendations := hout
    unfold dedupe_normalized_output
    rw [hb2, hr2]

def c3Cfg : Config :=
  ⟨"openrouter", "k", "", "m", "", "", "", "", "", "", "", 2, 2, true, false, false⟩

def c3Extracted : NormalizedOutput :=
  ⟨[⟨"A", "1", "High", "e"⟩], [⟨"R", "P", "why"⟩], "old summary", "old disc"⟩

def c3Synth : NormalizedOutput :=
  ⟨[⟨"Z", "9", "Low", "x"⟩], [⟨"N", "Pr", "r"⟩], "new summary", "new disc"⟩

def c3Oracle : CallArgs → CallOutcome := fun args =>
  match args.kind with
  | .synthesis _ => .ok c3Synth
  | _ => .exn "other"

/-- Witness for C3 at a concrete synthesis success: the biomarkers stay those
of the input, everything else comes from the synthesized output. -/
theorem c3_witness :
    (run_summary_recommendation_synthesis c3Cfg c3Oracle c3Extracted).1 =
      ({ biomarkers := c3Extracted.biomarkers, recommendations := c3Synth.recommendations,
         summary := c3Synth.summary, disclaimer := c3Synth.disclaimer }, some "m") :=
  (c3_synthesis_frame c3Cfg c3Oracle c3Extracted (by decide)).2
    [] "m" [] c3Synth (by decide) (by decide) (by decide) (by decide)

/-! ## Claim C4: reconciliation non-fatality and atomicity -/

/-- C4: on reconciliation-chain success the reconciled output replaces the
batch result; when every reconciliation model fails, the pre-reconciliation
extraction is returned unchanged with the joined reconciliation errors as
metadata; and, at the call site, the batch still yields its extraction with
the reconciliation failure merely appended to the diagnostic after a
`" | reconciliation:"` marker — the batch does not fail. -/
theorem c4_reconciliation (c : Config) (oracle : CallArgs → CallOutcome)
    (imagesSubset : List String) (pageNumbers : List Nat) (totalPages : Nat)
    (hv : c.visualOnlyMode = false) (he : c.enableReconciliation = true) :
    (∀ (extracted : NormalizedOutput) (pre : List String) (m : String) (post : List String)
        (out : NormalizedOutput),
      recon_models c = pre ++ m :: post →
      (∀ m2 ∈ pre, (oracle ⟨m2, imagesSubset, pageNumbers, totalPages,
        .reconciliation extracted⟩).isFail = true) →
      oracle ⟨m, imagesSubset, pageNumbers, totalPages, .reconciliation extracted⟩ = .ok out →
      (run_reconciliation_chain_for_images c oracle imagesSubset pageNumbers totalPages
        extracted).1 = (out, some m))
    ∧ (∀ extracted : NormalizedOutput,
      (∀ m ∈ recon_models c, (oracle ⟨m, imagesSubset, pageNumbers, totalPages,
        .reconciliation extracted⟩).isFail = true) →
      recon_models c ≠ [] →
      (run_reconciliation_chain_for_images c oracle imagesSubset pageNumbers totalPages
        extracted).1 = (extracted, some (String.intercalate " | " ((recon_models c).map
          (fun m => callErrorString 300 m (oracle ⟨m, imagesSubset, pageNumbers, totalPages,
            .reconciliation extracted⟩))))))
    ∧ (∀ (modelChain : List String) (n : NormalizedOutput) (moe : String),
      (run_model_chain_for_images oracle modelChain imagesSubset pageNumbers totalPages).1
        = (some n, moe) →
      (imagesSubset.length ≤ 1 ∨ is_suspiciously_incomplete c n imagesSubset.length = false) →
      (∀ m ∈ recon_models c, (oracle ⟨m, imagesSubset, pageNumbers, totalPages,
        .reconciliation n⟩).isFail = true) →
      recon_models c ≠ [] →
      (run_with_completeness_retry c oracle modelChain imagesSubset pageNumbers totalPages).1
        = (some n, moe ++ " | reconciliation:" ++ String.intercalate " | "
            ((recon_models c).map (fun m => callErrorString 300 m
              (oracle ⟨m, imagesSubset, pageNumbers, totalPages, .reconciliation n⟩))))) := by
  refine ⟨?_, ?_, ?_⟩
  · intro extracted pre m post out hchain hpre hm
    exact run_recon_success c oracle imagesSubset pageNumbers totalPages extracted hv he
      pre m post out hchain hpre hm
  · intro extracted hfail hne
    exact run_recon_all_fail c oracle imagesSubset pageNumbers totalPages extracted hv he
      hfail hne
  · intro modelChain n moe hfirst hsmall hfail hne
    have hcond : imagesSubset.length ≤ 1
        ∨ ¬ is_suspiciously_incomplete c n imagesSubset.length = true := by
      rcases hsmall with h1 | h1
      · exact Or.inl h1
      · exact Or.inr (by rw [h1]; exact Bool.false_ne_true)
    have hrr := run_recon_all_fail c oracle imagesSubset pageNumbers totalPages n hv he
      hfail hne
    have htag : (reconcileAndTag c oracle imagesSubset pageNumbers totalPages n moe
        (run_model_chain_for_images oracle modelChain imagesSubset pageNumbers
          totalPages).2).1
        = (some n, moe ++ " | reconciliation:" ++ String.intercalate " | "
            ((recon_models c).map (fun m => callErrorString 300 m
              (oracle ⟨m, imagesSubset, pageNumbers, totalPages, .reconciliation n⟩)))) := by
      simp only [reconcileAndTag]
      rw [hrr]
    simp only [run_with_completeness_retry]
    rw [hfirst]
    show (if imagesSubset.length ≤ 1
          ∨ ¬ is_suspiciously_incomplete c n imagesSubset.length then
        reconcileAndTag c oracle imagesSubset pageNumbers totalPages n moe
          (run_model_chain_for_images oracle modelChain imagesSubset pageNumbers
            totalPages).2
      else
        completenessRetryLoop c oracle modelChain imagesSubset pageNumbers totalPages
          n moe (imagesSubset.zip pageNumbers) [] []
          (run_model_chain_for_images oracle modelChain imagesSubset pageNumbers
            totalPages).2).1 = _
    rw [if_pos hcond]
    exact htag

def c4Cfg : Config :=
  ⟨"openrouter", "k", "", "prim", "fb1", "fb2", "fb3", "", "", "", "", 2, 2, true, false, false⟩

def c4N : NormalizedOutput :=
  ⟨[⟨"A", "1", "High", "e"⟩, ⟨"B", "2", "Low", "e"⟩], [], "s", "d"⟩

def c4Oracle : CallArgs → CallOutcome := fun args =>
  match args.kind with
  | .extraction => .ok c4N
  | .reconciliation _ => .exn "rfail"
  | .synthesis _ => .exn "sfail"

/-- Witness for C4: all three reconciliation models fail and the extraction
comes back unchanged with the joined error trail. -/
theorem c4_witness :
    (run_reconciliation_chain_for_images c4Cfg c4Oracle ["i"] [1] 1 c4N).1
      = (c4N, some "fb1: rfail | fb2: rfail | prim: rfail") :=
  (c4_reconciliation c4Cfg c4Oracle ["i"] [1] 1 rfl rfl).2.1 c4N (by decide) (by decide)

/-! ## Claim C9: reconciliation chain composition -/

def c9Cfg : Config :=
  ⟨"qwen", "ok", "qk", "o0", "o1", "o2", "o3", "q1", "q2", "q3", "q4", 2, 2, true, false, false⟩

/-- C9 (counterexample): with the active provider set to `qwen`, the
reconciliation chain is still built from the OpenRouter model variables:
it is `["o1", "o2", "o0"]` while the active provider chain is
`["q1", "q2", "q3", "q4"]`, so the reconciliation chain does not consist of
model identifiers of the active provider. -/
theorem c9_counterexample :
    recon_models c9Cfg = ["o1", "o2", "o0"]
    ∧ active_provider_model_chain c9Cfg = ["q1", "q2", "q3", "q4"]
    ∧ "o1" ∉ active_provider_model_chain c9Cfg := by
  refine ⟨by decide, by decide, by decide⟩

/-- C9 (amended): the reconciliation model chain is always built from the
OpenRouter configuration, independent of the active provider: OpenRouter
fallback 1, then fallback 2, then the primary (fallbacks deliberately before
the primary), with empty-string and duplicate entries dropped and fallback 3
never included. -/
theorem c9_amended :
    (∀ (c : Config) (p : String), recon_models { c with aiProvider := p } = recon_models c)
    ∧ (∀ c : Config,
      c.openrouterFallbackModel ≠ "" → c.openrouterFallbackModel2 ≠ "" →
      c.openrouterPrimaryModel ≠ "" →
      c.openrouterFallbackModel2 ≠ c.openrouterFallbackModel →
      c.openrouterPrimaryModel ≠ c.openrouterFallbackModel →
      c.openrouterPrimaryModel ≠ c.openrouterFallbackModel2 →
      recon_models c = [c.openrouterFallbackModel, c.openrouterFallbackModel2,
        c.openrouterPrimaryModel]) := by
  constructor
  · intro c p
    rfl
  · intro c h1 h2 h3 h21 h31 h32
    simp only [recon_models]
    rw [if_pos h1]
    have hmem2 : c.openrouterFallbackModel2 ∉ ([] : List String)
        ++ [c.openrouterFallbackModel] := by
      rw [List.nil_append, List.mem_singleton]
      exact h21
    have hc2 : c.openrouterFallbackModel2 ≠ ""
        ∧ c.openrouterFallbackModel2 ∉ ([] : List String) ++ [c.openrouterFallbackModel] :=
      ⟨h2, hmem2⟩
    rw [if_pos hc2]
    have hmem3 : c.openrouterPrimaryModel ∉ (([] : List String)
        ++ [c.openrouterFallbackModel]) ++ [c.openrouterFallbackModel2] := by
      intro hmem
      rcases List.mem_append.mp hmem with hm | hm
      · rw [List.nil_append, List.mem_singleton] at hm
        exact h31 hm
      · rw [List.mem_singleton] at hm
        exact h32 hm
    have hc3 : c.openrouterPrimaryModel ≠ ""
        ∧ c.openrouterPrimaryModel ∉ (([] : List String)
          ++ [c.openrouterFallbackModel]) ++ [c.openrouterFallbackModel2] :=
      ⟨h3, hmem3⟩
    rw [if_pos hc3]
    simp [List.filter, h1, h2, h3]

/-- Witness for C9 (amended) at the concrete configuration. -/
theorem c9_witness :
    recon_models c9Cfg = [c9Cfg.openrouterFallbackModel, c9Cfg.openrouterFallbackModel2,
      c9Cfg.openrouterPrimaryModel] :=
  c9_amended.2 c9Cfg (by decide) (by decide) (by decide) (by decide) (by decide) (by decide)

/-! ## Claim C10: OCR-only and missing-key gating -/

/-- C10: when the active provider has no API key, analyze returns a null
result with a "disabled (missing ...)" diagnostic and an empty call trace
(no model invoked); when OCR-only mode is on and the request has neither
whole-report OCR text nor any valid per-page OCR text, analyze returns a
null result with the missing-OCR diagnostic, again without invoking any
model. -/
theorem c10_gating :
    (∀ (c : Config) (oracle : CallArgs → CallOutcome) (payload : Payload),
      active_provider_api_key c = "" →
      maybe_generate_with_openrouter c oracle payload =
        ((none, (if c.aiProvider = "qwen" then "Qwen" else "OpenRouter")
          ++ " disabled (missing "
          ++ (if c.aiProvider = "qwen" then "QWEN_API_KEY" else "OPENROUTER_API_KEY")
          ++ ")"), []))
    ∧ (∀ (c : Config) (oracle : CallArgs → CallOutcome) (payload : Payload),
      active_provider_api_key c ≠ "" → c.ocrOnlyMode = true →
      extract_report_text payload = "" → extract_report_text_by_page payload = [] →
      maybe_generate_with_openrouter c oracle payload =
        ((none, (if c.aiProvider = "qwen" then "Qwen" else "OpenRouter")
          ++ " OCR-only mode enabled but no OCR text was provided"), [])) := by
  constructor
  · intro c oracle payload h
    simp only [maybe_generate_with_openrouter]
    rw [if_pos h]
  · intro c oracle payload h1 h2 h3 h4
    simp only [maybe_generate_with_openrouter]
    rw [if_neg h1]
    have hrt : pyStrip (if c.visualOnlyMode then "" else extract_report_text payload)
        = "" := by
      rw [h3, ite_self]
      exact pyStrip_empty
    rw [if_pos ⟨h2, hrt, by rw [h4]; rfl⟩]

def c10Cfg : Config :=
  ⟨"openrouter", "", "", "m", "", "", "", "", "", "", "", 2, 2, true, false, false⟩

/-- Witness for C10: a configuration without an OpenRouter key yields the
disabled diagnostic and an empty trace. -/
theorem c10_witness :
    maybe_generate_with_openrouter c10Cfg (fun _ => .exn "x") ⟨["i"], none, []⟩ =
      ((none, "OpenRouter disabled (missing OPENROUTER_API_KEY)"), []) :=
  c10_gating.1 c10Cfg (fun _ => .exn "x") ⟨["i"], none, []⟩ rfl

end LabLens
